import Mathlib

/-!
Shallow embedding of the subnet-evm stateful-precompile subsystem:
the native-minter precompile (`contract_native_minter.go`), the
fee-config-manager precompile, and the xChainECRecover stub.

Bytes are modelled as `List Nat` (each element a byte value `< 256`);
256-bit machine words and 20-byte addresses are `Nat` with explicit
`% 2 ^ 256` / `% 2 ^ 160` where the Go code truncates. Go's in-place
`StateDB` mutation becomes explicit state passing.
-/

/-- Big-endian interpretation of a byte list, as Go's `big.Int.SetBytes`. -/
def beBytesToNat (bs : List Nat) : Nat :=
  bs.foldl (fun acc b => acc * 256 + b) 0

/-- Big-endian encoding of `n % 256 ^ w` into exactly `w` bytes, as Go's
`big.Int.FillBytes(make([]byte, w))` for values that fit. -/
def natToBeBytes : Nat → Nat → List Nat
  | 0, _ => []
  | w + 1, n => natToBeBytes w (n / 256) ++ [n % 256]

theorem natToBeBytes_length (w n : Nat) : (natToBeBytes w n).length = w := by
  induction w generalizing n with
  | zero => rfl
  | succ w ih => simp [natToBeBytes, ih]

theorem natToBeBytes_mem_lt (w n : Nat) : ∀ b ∈ natToBeBytes w n, b < 256 := by
  induction w generalizing n with
  | zero => intro b hb; simp [natToBeBytes] at hb
  | succ w ih =>
    intro b hb
    simp only [natToBeBytes, List.mem_append, List.mem_singleton] at hb
    rcases hb with hb | hb
    · exact ih _ b hb
    · subst hb; exact Nat.mod_lt _ (by norm_num)

theorem beBytesToNat_foldl_init (a : Nat) (ys : List Nat) :
    ys.foldl (fun acc b => acc * 256 + b) a =
      a * 256 ^ ys.length + beBytesToNat ys := by
  induction ys generalizing a with
  | nil => simp [beBytesToNat]
  | cons y ys ih =>
    simp only [List.foldl_cons, beBytesToNat, List.length_cons]
    rw [ih (a * 256 + y), ih (0 * 256 + y)]
    ring

theorem beBytesToNat_append (xs ys : List Nat) :
    beBytesToNat (xs ++ ys) =
      beBytesToNat xs * 256 ^ ys.length + beBytesToNat ys := by
  unfold beBytesToNat
  rw [List.foldl_append]
  exact beBytesToNat_foldl_init _ ys

theorem beBytesToNat_lt (bs : List Nat) (h : ∀ b ∈ bs, b < 256) :
    beBytesToNat bs < 256 ^ bs.length := by
  induction bs with
  | nil => simp [beBytesToNat]
  | cons b bs ih =>
    have hb : b < 256 := h b (List.mem_cons_self _ _)
    have hbs : beBytesToNat bs < 256 ^ bs.length :=
      ih (fun x hx => h x (List.mem_cons_of_mem _ hx))
    have : beBytesToNat (b :: bs) = b * 256 ^ bs.length + beBytesToNat bs := by
      have := beBytesToNat_append [b] bs
      simpa [beBytesToNat] using this
    rw [this, List.length_cons, pow_succ]
    calc b * 256 ^ bs.length + beBytesToNat bs
        < b * 256 ^ bs.length + 256 ^ bs.length := by omega
      _ = (b + 1) * 256 ^ bs.length := by ring
      _ ≤ 256 ^ bs.length * 256 := by
          rw [Nat.mul_comm (256 ^ bs.length) 256]
          exact Nat.mul_le_mul_right _ (by omega)

theorem beBytesToNat_natToBeBytes (w n : Nat) :
    beBytesToNat (natToBeBytes w n) = n % 256 ^ w := by
  induction w generalizing n with
  | zero => simp [natToBeBytes, beBytesToNat, Nat.mod_one]
  | succ w ih =>
    rw [natToBeBytes, beBytesToNat_append, ih]
    simp only [List.length_singleton, pow_one]
    have hsing : beBytesToNat [n % 256] = n % 256 := by simp [beBytesToNat]
    rw [hsing]
    have hrepr : n = 256 ^ (w + 1) * (n / 256 / 256 ^ w) +
        ((n / 256 % 256 ^ w) * 256 + n % 256) := by
      have h1 : n / 256 = 256 ^ w * (n / 256 / 256 ^ w) + n / 256 % 256 ^ w :=
        (Nat.div_add_mod _ _).symm
      have h2 : n = 256 * (n / 256) + n % 256 := (Nat.div_add_mod _ _).symm
      calc n = 256 * (n / 256) + n % 256 := h2
        _ = 256 * (256 ^ w * (n / 256 / 256 ^ w) + n / 256 % 256 ^ w) + n % 256 := by
            rw [← h1]
        _ = 256 ^ (w + 1) * (n / 256 / 256 ^ w) +
              ((n / 256 % 256 ^ w) * 256 + n % 256) := by ring
    have hlt : (n / 256 % 256 ^ w) * 256 + n % 256 < 256 ^ (w + 1) := by
      have ha : n / 256 % 256 ^ w < 256 ^ w := Nat.mod_lt _ (Nat.pos_pow_of_pos _ (by norm_num))
      have hb : n % 256 < 256 := Nat.mod_lt _ (by norm_num)
      have : (n / 256 % 256 ^ w) * 256 + n % 256 ≤ (256 ^ w - 1) * 256 + 255 := by
        have := Nat.le_sub_one_of_lt ha
        exact Nat.add_le_add (Nat.mul_le_mul_right _ this) (Nat.le_sub_one_of_lt hb)
      have hpos : 1 ≤ 256 ^ w := Nat.one_le_pow _ _ (by norm_num)
      calc (n / 256 % 256 ^ w) * 256 + n % 256
          ≤ (256 ^ w - 1) * 256 + 255 := this
        _ < 256 ^ w * 256 := by
            rw [Nat.sub_mul, Nat.one_mul]
            omega
        _ = 256 ^ (w + 1) := by rw [pow_succ]
    conv_rhs => rw [hrepr]
    rw [Nat.mul_add_mod]
    exact (Nat.mod_eq_of_lt hlt).symm

/-- Dropping the high bytes of a valid byte string is reduction mod the
matching power of 256. -/
theorem beBytesToNat_drop (bs : List Nat) (h : ∀ b ∈ bs, b < 256) (k : Nat) :
    beBytesToNat bs % 256 ^ (bs.length - k) = beBytesToNat (bs.drop k) := by
  have hsplit : bs = bs.take k ++ bs.drop k := (List.take_append_drop k bs).symm
  have hlen : (bs.drop k).length = bs.length - k := List.length_drop k bs
  have hlt : beBytesToNat (bs.drop k) < 256 ^ (bs.length - k) := by
    rw [← hlen]
    exact beBytesToNat_lt _ (fun b hb => h b (hsplit ▸ List.mem_append_right _ hb))
  nth_rewrite 1 [hsplit]
  rw [beBytesToNat_append, hlen, Nat.mul_add_mod' _ _ _]
  exact Nat.mod_eq_of_lt hlt

/-! ## Host-VM state model

The `StateDB` collaborator (go-ethereum's state database, out of scope of
the repository). Accounts are keyed by their address value; a non-existent
account reads as zero balance and zero storage, `AddBalance` and `SetState`
create the account if absent, and `CreateAccount` carries the observable
balance over and resets storage, as the host VM's primitives do. -/

structure StateDB where
  existsAcct : Nat → Bool
  balance : Nat → Nat
  storage : Nat → Nat → Nat

/-- `stateDB.Exist(addr)`. -/
def StateDB.Exist (s : StateDB) (a : Nat) : Bool := s.existsAcct a

/-- Observable balance: zero for a non-existent account. -/
def StateDB.GetBalance (s : StateDB) (a : Nat) : Nat :=
  if s.existsAcct a then s.balance a else 0

/-- Observable storage slot: zero for a non-existent account. -/
def StateDB.GetState (s : StateDB) (a k : Nat) : Nat :=
  if s.existsAcct a then s.storage a k else 0

/-- `stateDB.CreateAccount(addr)`: the account exists afterwards, its
observable balance is carried over, its storage is reset. -/
def StateDB.CreateAccount (s : StateDB) (a : Nat) : StateDB where
  existsAcct := fun x => if x = a then true else s.existsAcct x
  balance := fun x => if x = a then s.GetBalance a else s.balance x
  storage := fun x k => if x = a then 0 else s.storage x k

/-- `stateDB.AddBalance(addr, amount)`: creates the account if absent, then
adds `amount` to its observable balance. -/
def StateDB.AddBalance (s : StateDB) (a amt : Nat) : StateDB where
  existsAcct := fun x => if x = a then true else s.existsAcct x
  balance := fun x => if x = a then s.GetBalance a + amt else s.balance x
  storage := fun x k => if x = a then s.GetState a k else s.storage x k

/-- `stateDB.SetState(addr, key, value)`: creates the account if absent,
then writes the slot; other slots keep their observable values. -/
def StateDB.SetState (s : StateDB) (a k v : Nat) : StateDB where
  existsAcct := fun x => if x = a then true else s.existsAcct x
  balance := s.balance
  storage := fun x k2 =>
    if x = a then (if k2 = k then v else s.GetState a k2) else s.storage x k2

/-- The empty state: no account exists. -/
def emptyState : StateDB where
  existsAcct := fun _ => false
  balance := fun _ => 0
  storage := fun _ _ => 0

/-! ## Errors, gas, selector codec, allow list -/

/-- The error values the embedded handlers can return. `OutOfGas` and
`WriteProtection` are `vmerrs.ErrOutOfGas` / `vmerrs.ErrWriteProtection`;
the remaining constructors stand for the distinct `fmt.Errorf` /
`errors.New` values of the source, carrying their formatted data. -/
inductive PrecompErr where
  | OutOfGas : PrecompErr
  | WriteProtection : PrecompErr
  | InvalidMintInput : Nat → PrecompErr
  | InvalidFeeConfigInput : Nat → PrecompErr
  | InvalidAllowListInput : Nat → PrecompErr
  | CannotMint : Nat → PrecompErr
  | CannotChangeFee : Nat → PrecompErr
  | CannotModifyAllowList : Nat → PrecompErr
  | UnknownFieldKey : Nat → PrecompErr
  | EncodingLengthMismatch : Nat → Nat → PrecompErr
deriving DecidableEq, Repr

/-- Result of running a handler: returned bytes (`none` is Go's nil slice),
remaining gas, error, and the resulting state. -/
structure ExecResult where
  ret : Option (List Nat)
  remainingGas : Nat
  err : Option PrecompErr
  state : StateDB

/-- Modelled from the spec: `deductGas` (GasBudget collaborator of the
repository's contract module, absent from src/): insufficient budget fails
with OutOfGas, otherwise the cost is subtracted. -/
def deductGas (suppliedGas requiredGas : Nat) : Except PrecompErr Nat :=
  if suppliedGas < requiredGas then .error .OutOfGas
  else .ok (suppliedGas - requiredGas)

/-- Modelled from the spec: fixed per-operation gas costs (constants of the
repository absent from src/); only their use as fixed costs is relevant. -/
def MintGasCost : Nat := 30000

/-- Modelled from the spec: fixed gas cost of `setFeeConfig`. -/
def SetFeeConfigGasCost : Nat := 20000

/-- Modelled from the spec: fixed gas cost of an allow-list role setter. -/
def ModifyAllowListGasCost : Nat := 20000

/-- Modelled from the spec: fixed gas cost of `readAllowList` (also used by
the read-styled stub selector). -/
def ReadAllowListGasCost : Nat := 5000

/-- Modelled from the spec: the fixed 20-byte precompile address of the
native minter, as a `Nat`. -/
def ContractNativeMinterAddress : Nat := 0x0200000000000000000000000000000000000001

/-- Modelled from the spec: the fixed 20-byte precompile address of the
fee config manager, as a `Nat`. -/
def FeeConfigManagerAddress : Nat := 0x0200000000000000000000000000000000000003

/-- `selectorLen`: length of a function selector in bytes. -/
def selectorLen : Nat := 4

/-- `common.HashLength`: length of a 256-bit word in bytes. -/
def HashLength : Nat := 32

/-- Modelled from the spec: the 4-byte selector of
`mintNativeCoin(address,uint256)`; the hash derivation is out of scope and
only the 4-byte length is load-bearing. -/
def mintSignature : List Nat := [0x4f, 0x5a, 0xaa, 0xba]

/-- Modelled from the spec: the 4-byte selector of
`setFeeConfig(uint256,...,uint256)`; only the 4-byte length is
load-bearing. -/
def setFeeConfigSignature : List Nat := [0x8f, 0x10, 0xb5, 0x86]

/-- `common.BytesToAddress`: keeps the low (last) 20 bytes, i.e. reduces the
big-endian value mod `2 ^ 160`. -/
def bytesToAddress (bs : List Nat) : Nat :=
  beBytesToNat bs % 2 ^ 160

/-- Modelled from the spec: `returnPackedElement(input, index)` of the
repository's codec module (absent from src/) returns the 32-byte slice
`[index*32, index*32+32)`. -/
def returnPackedElement (input : List Nat) (index : Nat) : List Nat :=
  (input.drop (index * HashLength)).take HashLength

/-- Modelled from the spec: `inputPackOrdered(input, packedLen)` of the
repository's codec module (absent from src/): concatenates the parts and
fails if the concatenated length differs from `packedLen`. -/
def inputPackOrdered (input : List (List Nat)) (packedLen : Nat) :
    Except PrecompErr (List Nat) :=
  let packed := input.flatten
  if packed.length ≠ packedLen then
    .error (.EncodingLengthMismatch packed.length packedLen)
  else .ok packed

/-- The tri-state allow-list role (`allow_list.go`, absent from src/),
modelled from the spec: None < Enabled < Admin. -/
inductive AllowListRole where
  | NoRole : AllowListRole
  | Enabled : AllowListRole
  | Admin : AllowListRole
deriving DecidableEq, Repr

/-- `IsEnabled` holds for Enabled and Admin. -/
def AllowListRole.IsEnabled : AllowListRole → Bool
  | .NoRole => false
  | _ => true

/-- `IsAdmin` holds only for Admin. -/
def AllowListRole.IsAdmin : AllowListRole → Bool
  | .Admin => true
  | _ => false

/-- The 256-bit slot value a role is stored as. -/
def roleValue : AllowListRole → Nat
  | .NoRole => 0
  | .Enabled => 1
  | .Admin => 2

/-- Modelled from the spec: decoding a stored slot value to a role; only the
low byte of the 256-bit value is significant. -/
def roleFromValue (v : Nat) : AllowListRole :=
  if v % 256 = 1 then .Enabled
  else if v % 256 = 2 then .Admin
  else .NoRole

/-- Modelled from the spec: `getAllowListStatus(state, precompileAddr,
address)` reads the slot keyed by the subject's 256-bit form (its address
value, left-padded) under the precompile's address. -/
def getAllowListStatus (s : StateDB) (precompileAddr address : Nat) : AllowListRole :=
  roleFromValue (s.GetState precompileAddr address)

/-- Modelled from the spec: `setAllowListRole(state, precompileAddr,
address, role)` unconditionally writes the role's slot value. -/
def setAllowListRole (s : StateDB) (precompileAddr address : Nat)
    (role : AllowListRole) : StateDB :=
  s.SetState precompileAddr address (roleValue role)

/-- Modelled from the spec: body length of an allow-list setter/reader
call, one 32-byte word. -/
def allowListInputLen : Nat := HashLength

/-! ## Native minter: pack, unpack, handler (`contract_native_minter.go`) -/

/-- `mintInputLen = common.HashLength + common.HashLength`. -/
def mintInputLen : Nat := HashLength + HashLength

/-- `PackMintInput(address, amount)`: selector, 32-byte left-padded address
word (`address.Hash().Bytes()`), 32-byte big-endian amount
(`amount.FillBytes(make([]byte, 32))`), packed via `inputPackOrdered`. -/
def PackMintInput (address amount : Nat) : Except PrecompErr (List Nat) :=
  inputPackOrdered
    [mintSignature, natToBeBytes 32 address, natToBeBytes 32 amount]
    (selectorLen + mintInputLen)

/-- `UnpackMintInput(input)`: length must be exactly 64; the address comes
from word 0 via `common.BytesToAddress`, the amount from word 1 via
`big.Int.SetBytes`. -/
def UnpackMintInput (input : List Nat) : Except PrecompErr (Nat × Nat) :=
  if input.length ≠ mintInputLen then
    .error (.InvalidMintInput input.length)
  else
    .ok (bytesToAddress (returnPackedElement input 0),
         beBytesToNat (returnPackedElement input 1))

/-- `createMintNativeCoin`: gas, write protection, input decoding,
allow-list check, account creation if absent, balance increase. -/
def createMintNativeCoin (s : StateDB) (caller addr : Nat) (input : List Nat)
    (suppliedGas : Nat) (readOnly : Bool) : ExecResult :=
  match deductGas suppliedGas MintGasCost with
  | .error e => ⟨none, 0, some e, s⟩
  | .ok remainingGas =>
    if readOnly then ⟨none, remainingGas, some .WriteProtection, s⟩
    else
      match UnpackMintInput input with
      | .error e => ⟨none, remainingGas, some e, s⟩
      | .ok (toAddr, amount) =>
        let callerStatus := getAllowListStatus s ContractNativeMinterAddress caller
        if ! callerStatus.IsEnabled then
          ⟨none, remainingGas, some (.CannotMint caller), s⟩
        else
          let s1 := if s.Exist toAddr then s else s.CreateAccount toAddr
          ⟨some [], remainingGas, none, s1.AddBalance toAddr amount⟩

/-! ## Fee config manager: pack, unpack, storage, handler -/

/-- The 8-field fee configuration; fields are 256-bit words. -/
structure FeeConfig where
  GasLimit : Nat
  TargetBlockRate : Nat
  MinBaseFee : Nat
  TargetGas : Nat
  BaseFeeChangeDenominator : Nat
  MinBlockGasCost : Nat
  MaxBlockGasCost : Nat
  BlockGasCostStep : Nat
deriving DecidableEq, Repr

/-- The zero value `FeeConfig{}`. -/
def zeroFeeConfig : FeeConfig := ⟨0, 0, 0, 0, 0, 0, 0, 0⟩

/-- `minKey = gasLimitKey = 0`. -/
def minKey : Nat := 0

/-- `maxKey = blockGasCostStepKey = 7`. -/
def maxKey : Nat := 7

/-- `feeConfigInputLen = common.HashLength * (maxKey - minKey + 1)`. -/
def feeConfigInputLen : Nat := HashLength * (maxKey - minKey + 1)

/-- The storage slot key `common.Hash{byte(i)}`: a 32-byte word whose FIRST
byte is `i`, i.e. the value `i * 2 ^ 248`. -/
def feeSlotKey (i : Nat) : Nat := i * 2 ^ 248

/-- The fee-config field at key `i` in the fixed order of the source's
`switch`; `none` is the source's unreachable `unknown field key` default. -/
def feeConfigField (c : FeeConfig) : Nat → Option Nat
  | 0 => some c.GasLimit
  | 1 => some c.TargetBlockRate
  | 2 => some c.MinBaseFee
  | 3 => some c.TargetGas
  | 4 => some c.BaseFeeChangeDenominator
  | 5 => some c.MinBlockGasCost
  | 6 => some c.MaxBlockGasCost
  | 7 => some c.BlockGasCostStep
  | _ => none

/-- Setting the fee-config field at key `i`, mirroring `GetFeeConfig`'s
`switch`; `none` is the unreachable `unknown field key` default. -/
def setFeeConfigField (c : FeeConfig) (i v : Nat) : Option FeeConfig :=
  match i with
  | 0 => some { c with GasLimit := v }
  | 1 => some { c with TargetBlockRate := v }
  | 2 => some { c with MinBaseFee := v }
  | 3 => some { c with TargetGas := v }
  | 4 => some { c with BaseFeeChangeDenominator := v }
  | 5 => some { c with MinBlockGasCost := v }
  | 6 => some { c with MaxBlockGasCost := v }
  | 7 => some { c with BlockGasCostStep := v }
  | _ => none

/-- `PackSetFeeConfigInput(feeConfig)`: selector plus the 8 fields, each as
a 32-byte big-endian word, packed via `inputPackOrdered`. -/
def PackSetFeeConfigInput (c : FeeConfig) : Except PrecompErr (List Nat) :=
  inputPackOrdered
    [setFeeConfigSignature,
     natToBeBytes 32 c.GasLimit,
     natToBeBytes 32 c.TargetBlockRate,
     natToBeBytes 32 c.MinBaseFee,
     natToBeBytes 32 c.TargetGas,
     natToBeBytes 32 c.BaseFeeChangeDenominator,
     natToBeBytes 32 c.MinBlockGasCost,
     natToBeBytes 32 c.MaxBlockGasCost,
     natToBeBytes 32 c.BlockGasCostStep]
    (selectorLen + feeConfigInputLen)

/-- `UnpackFeeConfigInput(input)`: length must be exactly 256; each field is
decoded from its 32-byte word in the fixed order. -/
def UnpackFeeConfigInput (input : List Nat) : Except PrecompErr FeeConfig :=
  if input.length ≠ feeConfigInputLen then
    .error (.InvalidFeeConfigInput input.length)
  else
    .ok { GasLimit := beBytesToNat (returnPackedElement input 0)
          TargetBlockRate := beBytesToNat (returnPackedElement input 1)
          MinBaseFee := beBytesToNat (returnPackedElement input 2)
          TargetGas := beBytesToNat (returnPackedElement input 3)
          BaseFeeChangeDenominator := beBytesToNat (returnPackedElement input 4)
          MinBlockGasCost := beBytesToNat (returnPackedElement input 5)
          MaxBlockGasCost := beBytesToNat (returnPackedElement input 6)
          BlockGasCostStep := beBytesToNat (returnPackedElement input 7) }

/-- `GetFeeConfig(stateDB)`: if the fee-config-manager account does not
exist, return `FeeConfig{}` with no error; otherwise loop over keys 0..7
reading each slot into its field (`val.Big()`), mirroring the source's
`for`/`switch` with its early-return `unknown field key` default. -/
def GetFeeConfig (s : StateDB) : FeeConfig × Option PrecompErr :=
  if ! s.Exist FeeConfigManagerAddress then (zeroFeeConfig, none)
  else
    (List.range (maxKey - minKey + 1)).foldl
      (fun acc i =>
        match acc.2 with
        | some _ => acc
        | none =>
          match setFeeConfigField acc.1 i
              (s.GetState FeeConfigManagerAddress (feeSlotKey i)) with
          | some c => (c, none)
          | none => (zeroFeeConfig, some (.UnknownFieldKey i)))
      (zeroFeeConfig, none)

/-- `setFeeConfig(stateDB, feeConfig)`: loop over keys 0..7 writing the
field's value as a 256-bit word (`common.BigToHash` truncates mod
`2 ^ 256`) to the fixed slot, mirroring the source's `for`/`switch` with
its early-return `unknown field key` default. -/
def setFeeConfig (s : StateDB) (c : FeeConfig) : StateDB × Option PrecompErr :=
  (List.range (maxKey - minKey + 1)).foldl
    (fun acc i =>
      match acc.2 with
      | some _ => acc
      | none =>
        match feeConfigField c i with
        | some v =>
          (acc.1.SetState FeeConfigManagerAddress (feeSlotKey i) (v % 2 ^ 256), none)
        | none => (acc.1, some (.UnknownFieldKey i)))
    (s, none)

/-- `createSetFeeConfig`: gas, write protection, input decoding, allow-list
check, then `setFeeConfig` (whose error the source discards). -/
def createSetFeeConfig (s : StateDB) (caller addr : Nat) (input : List Nat)
    (suppliedGas : Nat) (readOnly : Bool) : ExecResult :=
  match deductGas suppliedGas SetFeeConfigGasCost with
  | .error e => ⟨none, 0, some e, s⟩
  | .ok remainingGas =>
    if readOnly then ⟨none, remainingGas, some .WriteProtection, s⟩
    else
      match UnpackFeeConfigInput input with
      | .error e => ⟨none, remainingGas, some e, s⟩
      | .ok feeConfig =>
        let callerStatus := getAllowListStatus s FeeConfigManagerAddress caller
        if ! callerStatus.IsEnabled then
          ⟨none, remainingGas, some (.CannotChangeFee caller), s⟩
        else
          ⟨some [], remainingGas, none, (setFeeConfig s feeConfig).1⟩

/-! ## Allow-list role setter / reader handlers and the xChainECRecover stub -/

/-- Modelled from the spec: `createAllowListRoleSetter(precompileAddr,
role)` (allow_list.go, absent from src/). In the spec's strict handler
order: deduct the fixed cost, fail on read-only, decode the single 32-byte
address word, require the caller's role to be Admin, then write the role. -/
def createAllowListRoleSetter (precompileAddr : Nat) (role : AllowListRole)
    (s : StateDB) (caller addr : Nat) (input : List Nat)
    (suppliedGas : Nat) (readOnly : Bool) : ExecResult :=
  match deductGas suppliedGas ModifyAllowListGasCost with
  | .error e => ⟨none, 0, some e, s⟩
  | .ok remainingGas =>
    if readOnly then ⟨none, remainingGas, some .WriteProtection, s⟩
    else if input.length ≠ allowListInputLen then
      ⟨none, remainingGas, some (.InvalidAllowListInput input.length), s⟩
    else
      let modifyAddress := bytesToAddress input
      if ! (getAllowListStatus s precompileAddr caller).IsAdmin then
        ⟨none, remainingGas, some (.CannotModifyAllowList caller), s⟩
      else
        ⟨some [], remainingGas, none,
         setAllowListRole s precompileAddr modifyAddress role⟩

/-- Modelled from the spec: `createReadAllowList(precompileAddr)`
(allow_list.go, absent from src/): a pure read with no permission check and
no read-only check; deducts the fixed cost and returns the 32-byte role
word of the queried address. -/
def createReadAllowList (precompileAddr : Nat) (s : StateDB)
    (caller addr : Nat) (input : List Nat) (suppliedGas : Nat)
    (readOnly : Bool) : ExecResult :=
  match deductGas suppliedGas ReadAllowListGasCost with
  | .error e => ⟨none, 0, some e, s⟩
  | .ok remainingGas =>
    let readAddress := bytesToAddress input
    let role := getAllowListStatus s precompileAddr readAddress
    ⟨some (natToBeBytes 32 (roleValue role)), remainingGas, none, s⟩

/-- `createXChainECRecover`: deducts `MintGasCost`, fails on read-only,
then returns the raw input bytes unchanged. -/
def createXChainECRecover (s : StateDB) (caller addr : Nat)
    (input : List Nat) (suppliedGas : Nat) (readOnly : Bool) : ExecResult :=
  match deductGas suppliedGas MintGasCost with
  | .error e => ⟨none, 0, some e, s⟩
  | .ok remainingGas =>
    if readOnly then ⟨none, remainingGas, some .WriteProtection, s⟩
    else ⟨some input, remainingGas, none, s⟩

/-- `getXChainECRecover(precompileAddr)`: deducts `ReadAllowListGasCost`
and returns the raw input bytes unchanged, for any read-only flag. -/
def getXChainECRecover (precompileAddr : Nat) (s : StateDB)
    (caller addr : Nat) (input : List Nat) (suppliedGas : Nat)
    (readOnly : Bool) : ExecResult :=
  match deductGas suppliedGas ReadAllowListGasCost with
  | .error e => ⟨none, 0, some e, s⟩
  | .ok remainingGas => ⟨some input, remainingGas, none, s⟩

/-! ## Helper lemmas -/

theorem deductGas_ok (suppliedGas requiredGas : Nat) (h : requiredGas ≤ suppliedGas) :
    deductGas suppliedGas requiredGas = .ok (suppliedGas - requiredGas) := by
  simp [deductGas, Nat.not_lt.mpr h]

theorem deductGas_oog (suppliedGas requiredGas : Nat) (h : suppliedGas < requiredGas) :
    deductGas suppliedGas requiredGas = .error .OutOfGas := by
  simp [deductGas, h]

theorem GetState_SetState_eq (s : StateDB) (a k v : Nat) :
    (s.SetState a k v).GetState a k = v := by
  simp [StateDB.GetState, StateDB.SetState]

theorem GetState_SetState_ne (s : StateDB) (a k v k2 : Nat) (h : k2 ≠ k) :
    (s.SetState a k v).GetState a k2 = s.GetState a k2 := by
  simp [StateDB.GetState, StateDB.SetState, h]

theorem Exist_SetState_eq (s : StateDB) (a k v : Nat) :
    (s.SetState a k v).Exist a = true := by
  simp [StateDB.Exist, StateDB.SetState]

theorem feeSlotKey_ne (i j : Nat) (h : i ≠ j) : feeSlotKey i ≠ feeSlotKey j := by
  simp only [feeSlotKey]
  intro hc
  exact h (Nat.eq_of_mul_eq_mul_right (by positivity) hc)

theorem take_append_of_length (c r : List Nat) (h : c.length = 32) :
    (c ++ r).take 32 = c := by
  rw [← h, List.take_left]

theorem drop_append_of_length (c r : List Nat) (h : c.length = 32) :
    (c ++ r).drop 32 = r := by
  rw [← h, List.drop_left]

theorem returnPackedElement_zero (c r : List Nat) (h : c.length = 32) :
    returnPackedElement (c ++ r) 0 = c := by
  simp [returnPackedElement, HashLength, take_append_of_length c r h]

theorem returnPackedElement_self (c : List Nat) (h : c.length = 32) :
    returnPackedElement c 0 = c := by
  simp [returnPackedElement, HashLength, ← h, List.take_length]

theorem returnPackedElement_succ (c r : List Nat) (h : c.length = 32) (i : Nat) :
    returnPackedElement (c ++ r) (i + 1) = returnPackedElement r i := by
  simp only [returnPackedElement, HashLength]
  have hstep : (i + 1) * 32 = 32 + i * 32 := by ring
  rw [hstep, ← List.drop_drop, drop_append_of_length c r h]

theorem beBytesToNat_natToBeBytes32 (n : Nat) (h : n < 2 ^ 256) :
    beBytesToNat (natToBeBytes 32 n) = n := by
  have h256 : (256 : Nat) ^ 32 = 2 ^ 256 := by norm_num
  rw [beBytesToNat_natToBeBytes, h256, Nat.mod_eq_of_lt h]

theorem drop_selector (sig x : List Nat) (h : sig.length = 4) :
    (sig ++ x).drop selectorLen = x := by
  simp only [selectorLen, ← h, List.drop_left]

/-- C2: for every 20-byte address `to` and every 256-bit `amount`,
`PackMintInput(to, amount)` succeeds, and `UnpackMintInput` applied to its
output with the leading 4-byte selector removed returns exactly
`(to, amount)` with no error. -/
theorem packMint_unpackMint_roundtrip (toAddr amount : Nat)
    (hto : toAddr < 2 ^ 160) (ham : amount < 2 ^ 256) :
    ∃ packed, PackMintInput toAddr amount = .ok packed ∧
      UnpackMintInput (packed.drop selectorLen) = .ok (toAddr, amount) := by
  refine ⟨mintSignature ++ (natToBeBytes 32 toAddr ++ natToBeBytes 32 amount),
    ?_, ?_⟩
  · simp only [PackMintInput, inputPackOrdered, List.flatten, List.append_nil,
      List.append_assoc]
    rw [if_neg]
    simp only [List.length_append, natToBeBytes_length]
    simp [mintSignature, selectorLen, mintInputLen, HashLength]
  · rw [drop_selector mintSignature _ (by rfl)]
    have hlen : (natToBeBytes 32 toAddr ++ natToBeBytes 32 amount).length =
        mintInputLen := by
      simp [List.length_append, natToBeBytes_length, mintInputLen, HashLength]
    simp only [UnpackMintInput, hlen, ne_eq, not_true_eq_false, if_neg,
      not_false_eq_true]
    rw [returnPackedElement_zero _ _ (natToBeBytes_length 32 toAddr),
      returnPackedElement_succ _ _ (natToBeBytes_length 32 toAddr),
      returnPackedElement_self _ (natToBeBytes_length 32 amount)]
    rw [beBytesToNat_natToBeBytes32 amount ham]
    simp only [bytesToAddress, beBytesToNat_natToBeBytes]
    have h1 : (2 : Nat) ^ 160 ∣ 256 ^ 32 := by norm_num
    rw [Nat.mod_mod_of_dvd _ h1, Nat.mod_eq_of_lt hto]

/-- C2 witness at a concrete input. -/
theorem packMint_unpackMint_roundtrip_witness :
    3 < 2 ^ 160 ∧ 5 < 2 ^ 256 ∧
      ∃ packed, PackMintInput 3 5 = .ok packed ∧
        UnpackMintInput (packed.drop selectorLen) = .ok (3, 5) :=
  ⟨by norm_num, by norm_num,
   packMint_unpackMint_roundtrip 3 5 (by norm_num) (by norm_num)⟩

/-- C7: `UnpackMintInput` fails with its invalid-input-length error exactly
when the input length is not 64, and `UnpackFeeConfigInput` fails with its
invalid-input-length error exactly when the input length is not 256. -/
theorem unpack_length_checks (input : List Nat) :
    (input.length ≠ 64 →
      UnpackMintInput input = .error (.InvalidMintInput input.length)) ∧
    (input.length = 64 → ∃ v, UnpackMintInput input = .ok v) ∧
    (input.length ≠ 256 →
      UnpackFeeConfigInput input = .error (.InvalidFeeConfigInput input.length)) ∧
    (input.length = 256 → ∃ c, UnpackFeeConfigInput input = .ok c) := by
  have hm : mintInputLen = 64 := by norm_num [mintInputLen, HashLength]
  have hf : feeConfigInputLen = 256 := by
    norm_num [feeConfigInputLen, HashLength, maxKey, minKey]
  refine ⟨fun h => ?_, fun h => ?_, fun h => ?_, fun h => ?_⟩
  · simp [UnpackMintInput, hm, h]
  · exact ⟨(bytesToAddress (returnPackedElement input 0),
      beBytesToNat (returnPackedElement input 1)),
      by simp [UnpackMintInput, hm, h]⟩
  · simp [UnpackFeeConfigInput, hf, h]
  · refine ⟨{ GasLimit := beBytesToNat (returnPackedElement input 0)
              TargetBlockRate := beBytesToNat (returnPackedElement input 1)
              MinBaseFee := beBytesToNat (returnPackedElement input 2)
              TargetGas := beBytesToNat (returnPackedElement input 3)
              BaseFeeChangeDenominator := beBytesToNat (returnPackedElement input 4)
              MinBlockGasCost := beBytesToNat (returnPackedElement input 5)
              MaxBlockGasCost := beBytesToNat (returnPackedElement input 6)
              BlockGasCostStep := beBytesToNat (returnPackedElement input 7) },
      by simp [UnpackFeeConfigInput, hf, h]⟩

/-- C7 witness at a concrete 3-byte input. -/
theorem unpack_length_checks_witness :
    UnpackMintInput [1, 2, 3] = .error (.InvalidMintInput 3) ∧
      UnpackFeeConfigInput [1, 2, 3] = .error (.InvalidFeeConfigInput 3) :=
  ⟨(unpack_length_checks [1, 2, 3]).1 (by decide),
   (unpack_length_checks [1, 2, 3]).2.2.1 (by decide)⟩

theorem bytesToAddress_eq_drop12 (bs : List Nat) (h32 : bs.length = 32)
    (hb : ∀ b ∈ bs, b < 256) :
    bytesToAddress bs = beBytesToNat (bs.drop 12) := by
  have hdrop := beBytesToNat_drop bs hb 12
  rw [h32] at hdrop
  have h20 : (256 : Nat) ^ (32 - 12) = 2 ^ 160 := by norm_num
  rw [h20] at hdrop
  simpa [bytesToAddress] using hdrop

/-- C10: on every valid 64-byte input, `UnpackMintInput` succeeds and
returns as `to` the value of only the low 20 bytes of the first 32-byte
word; two 64-byte inputs that differ only in the high 12 bytes of that
word decode identically. -/
theorem unpackMint_ignores_high_address_bytes (input input2 : List Nat)
    (h1 : input.length = 64) (hb1 : ∀ b ∈ input, b < 256)
    (h2 : input2.length = 64) (hb2 : ∀ b ∈ input2, b < 256)
    (hlow : (input.take 32).drop 12 = (input2.take 32).drop 12)
    (hrest : input.drop 32 = input2.drop 32) :
    UnpackMintInput input =
      .ok (beBytesToNat ((input.take 32).drop 12),
           beBytesToNat (input.drop 32)) ∧
    UnpackMintInput input2 = UnpackMintInput input := by
  have hm : mintInputLen = 64 := by norm_num [mintInputLen, HashLength]
  have unfoldU : ∀ l : List Nat, l.length = 64 → (∀ b ∈ l, b < 256) →
      UnpackMintInput l =
        .ok (beBytesToNat ((l.take 32).drop 12), beBytesToNat (l.drop 32)) := by
    intro l hl hbl
    have he0 : returnPackedElement l 0 = l.take 32 := by
      simp [returnPackedElement, HashLength]
    have he1 : returnPackedElement l 1 = l.drop 32 := by
      simp only [returnPackedElement, HashLength, one_mul]
      exact List.take_of_length_le (by simp [hl])
    have htk : (l.take 32).length = 32 := by simp [hl]
    have htb : ∀ b ∈ l.take 32, b < 256 := fun b hbmem =>
      hbl b (List.mem_of_mem_take hbmem)
    simp only [UnpackMintInput, hm, hl, ne_eq, not_true_eq_false, if_neg,
      not_false_eq_true, he0, he1]
    rw [bytesToAddress_eq_drop12 _ htk htb]
  refine ⟨unfoldU input h1 hb1, ?_⟩
  rw [unfoldU input h1 hb1, unfoldU input2 h2 hb2, hlow, hrest]

/-- C10 witness: two concrete 64-byte inputs differing only in the high 12
bytes of the first word. -/
theorem unpackMint_ignores_high_address_bytes_witness :
    UnpackMintInput (List.replicate 12 170 ++ List.replicate 52 0) =
      .ok (beBytesToNat (((List.replicate 12 170 ++
              List.replicate 52 0).take 32).drop 12),
           beBytesToNat ((List.replicate 12 170 ++ List.replicate 52 0).drop 32)) ∧
    UnpackMintInput (List.replicate 64 0) =
      UnpackMintInput (List.replicate 12 170 ++ List.replicate 52 0) :=
  unpackMint_ignores_high_address_bytes
    (List.replicate 12 170 ++ List.replicate 52 0) (List.replicate 64 0)
    (by decide) (by decide) (by decide) (by decide) (by decide) (by decide)

/-! ## Error-path theorems -/

/-- C4: every handler invoked with a gas budget strictly below its fixed
cost fails with OutOfGas, returns zero remaining gas, and leaves the state
unmodified, regardless of input, caller, or read-only flag. -/
theorem handlers_out_of_gas (s : StateDB) (caller addr : Nat)
    (input : List Nat) (gas : Nat) (readOnly : Bool)
    (precompileAddr : Nat) (role : AllowListRole) :
    (gas < MintGasCost →
      createMintNativeCoin s caller addr input gas readOnly =
        ⟨none, 0, some .OutOfGas, s⟩) ∧
    (gas < SetFeeConfigGasCost →
      createSetFeeConfig s caller addr input gas readOnly =
        ⟨none, 0, some .OutOfGas, s⟩) ∧
    (gas < ModifyAllowListGasCost →
      createAllowListRoleSetter precompileAddr role s caller addr input gas readOnly =
        ⟨none, 0, some .OutOfGas, s⟩) ∧
    (gas < ReadAllowListGasCost →
      createReadAllowList precompileAddr s caller addr input gas readOnly =
        ⟨none, 0, some .OutOfGas, s⟩) := by
  refine ⟨fun h => ?_, fun h => ?_, fun h => ?_, fun h => ?_⟩
  · simp [createMintNativeCoin, deductGas_oog _ _ h]
  · simp [createSetFeeConfig, deductGas_oog _ _ h]
  · simp [createAllowListRoleSetter, deductGas_oog _ _ h]
  · simp [createReadAllowList, deductGas_oog _ _ h]

/-- C4 witness: zero gas at each handler. -/
theorem handlers_out_of_gas_witness :
    createMintNativeCoin emptyState 1 2 [] 0 false =
      ⟨none, 0, some .OutOfGas, emptyState⟩ ∧
    createSetFeeConfig emptyState 1 2 [] 0 false =
      ⟨none, 0, some .OutOfGas, emptyState⟩ ∧
    createAllowListRoleSetter ContractNativeMinterAddress .Admin emptyState
        1 2 [] 0 false = ⟨none, 0, some .OutOfGas, emptyState⟩ ∧
    createReadAllowList ContractNativeMinterAddress emptyState 1 2 [] 0
        false = ⟨none, 0, some .OutOfGas, emptyState⟩ :=
  ⟨(handlers_out_of_gas emptyState 1 2 [] 0 false ContractNativeMinterAddress
      .Admin).1 (by decide),
   (handlers_out_of_gas emptyState 1 2 [] 0 false ContractNativeMinterAddress
      .Admin).2.1 (by decide),
   (handlers_out_of_gas emptyState 1 2 [] 0 false ContractNativeMinterAddress
      .Admin).2.2.1 (by decide),
   (handlers_out_of_gas emptyState 1 2 [] 0 false ContractNativeMinterAddress
      .Admin).2.2.2 (by decide)⟩

/-- C5: the write handlers invoked with `readOnly = true` and sufficient
gas fail with WriteProtection after gas deduction and before argument
decoding: for every input the state is untouched and the remaining gas is
the budget minus the fixed cost. -/
theorem write_handlers_write_protection (s : StateDB) (caller addr : Nat)
    (input : List Nat) (gas : Nat) :
    (MintGasCost ≤ gas →
      createMintNativeCoin s caller addr input gas true =
        ⟨none, gas - MintGasCost, some .WriteProtection, s⟩) ∧
    (SetFeeConfigGasCost ≤ gas →
      createSetFeeConfig s caller addr input gas true =
        ⟨none, gas - SetFeeConfigGasCost, some .WriteProtection, s⟩) := by
  refine ⟨fun h => ?_, fun h => ?_⟩
  · simp [createMintNativeCoin, deductGas_ok _ _ h]
  · simp [createSetFeeConfig, deductGas_ok _ _ h]

/-- C5 witness: a malformed input is still rejected by WriteProtection. -/
theorem write_handlers_write_protection_witness :
    createMintNativeCoin emptyState 1 2 [9] 30000 true =
      ⟨none, 0, some .WriteProtection, emptyState⟩ ∧
    createSetFeeConfig emptyState 1 2 [9] 20000 true =
      ⟨none, 0, some .WriteProtection, emptyState⟩ :=
  ⟨(write_handlers_write_protection emptyState 1 2 [9] 30000).1 (by decide),
   (write_handlers_write_protection emptyState 1 2 [9] 20000).2 (by decide)⟩

/-- C6: a caller whose role is not enabled on the respective contract has
well-formed mint / setFeeConfig calls (readOnly = false, sufficient gas)
rejected with the permission-denied error and the state returned exactly
as it was. -/
theorem not_enabled_permission_denied (s : StateDB) (caller addr : Nat)
    (inputM inputF : List Nat) (gas toAddr amount : Nat) (cfg : FeeConfig)
    (hm : (getAllowListStatus s ContractNativeMinterAddress caller).IsEnabled = false)
    (hf : (getAllowListStatus s FeeConfigManagerAddress caller).IsEnabled = false) :
    (MintGasCost ≤ gas → UnpackMintInput inputM = .ok (toAddr, amount) →
      createMintNativeCoin s caller addr inputM gas false =
        ⟨none, gas - MintGasCost, some (.CannotMint caller), s⟩) ∧
    (SetFeeConfigGasCost ≤ gas → UnpackFeeConfigInput inputF = .ok cfg →
      createSetFeeConfig s caller addr inputF gas false =
        ⟨none, gas - SetFeeConfigGasCost, some (.CannotChangeFee caller), s⟩) := by
  refine ⟨fun hg hu => ?_, fun hg hu => ?_⟩
  · simp [createMintNativeCoin, deductGas_ok _ _ hg, hu, hm]
  · simp [createSetFeeConfig, deductGas_ok _ _ hg, hu, hf]

set_option maxRecDepth 4000 in
/-- C6 witness: caller 9 (role None) is rejected by both handlers on
well-formed inputs over the empty state. -/
theorem not_enabled_permission_denied_witness :
    createMintNativeCoin emptyState 9 2 (List.replicate 64 0) 30000 false =
      ⟨none, 0, some (.CannotMint 9), emptyState⟩ ∧
    createSetFeeConfig emptyState 9 2 (List.replicate 256 0) 20000 false =
      ⟨none, 0, some (.CannotChangeFee 9), emptyState⟩ :=
  ⟨(not_enabled_permission_denied emptyState 9 2 (List.replicate 64 0)
      (List.replicate 256 0) 30000 0 0 zeroFeeConfig (by decide) (by decide)).1
      (by decide) (by rfl),
   (not_enabled_permission_denied emptyState 9 2 (List.replicate 64 0)
      (List.replicate 256 0) 20000 0 0 zeroFeeConfig (by decide) (by decide)).2
      (by decide) (by rfl)⟩

/-! ## The xChainECRecover stub (C9) -/

/-- C9 counterexample: the write-styled stub selector invoked with
`readOnly = true` and sufficient gas does not return its raw input; it
fails with WriteProtection. -/
theorem xChainECRecover_readOnly_no_echo :
    (createXChainECRecover emptyState 0 0 [1, 2, 3] MintGasCost true).ret ≠
      some [1, 2, 3] ∧
    (createXChainECRecover emptyState 0 0 [1, 2, 3] MintGasCost true).err =
      some .WriteProtection := by
  constructor
  · decide
  · decide

/-- C9 amended: with sufficient gas, the write-styled stub selector echoes
its raw input unchanged when `readOnly = false` (with `readOnly = true` it
fails with WriteProtection after gas deduction), and the read-styled stub
selector echoes its raw input unchanged for every read-only flag; both
deduct their fixed cost and perform no validation or transformation. -/
theorem xChainECRecover_stub_echoes (s : StateDB) (caller addr : Nat)
    (input : List Nat) (gas precompileAddr : Nat) :
    (MintGasCost ≤ gas →
      createXChainECRecover s caller addr input gas false =
        ⟨some input, gas - MintGasCost, none, s⟩) ∧
    (MintGasCost ≤ gas →
      createXChainECRecover s caller addr input gas true =
        ⟨none, gas - MintGasCost, some .WriteProtection, s⟩) ∧
    (∀ readOnly : Bool, ReadAllowListGasCost ≤ gas →
      getXChainECRecover precompileAddr s caller addr input gas readOnly =
        ⟨some input, gas - ReadAllowListGasCost, none, s⟩) := by
  refine ⟨fun h => ?_, fun h => ?_, fun readOnly h => ?_⟩
  · simp [createXChainECRecover, deductGas_ok _ _ h]
  · simp [createXChainECRecover, deductGas_ok _ _ h]
  · simp [getXChainECRecover, deductGas_ok _ _ h]

/-- C9 witness for the amended statement at concrete inputs. -/
theorem xChainECRecover_stub_echoes_witness :
    createXChainECRecover emptyState 0 0 [1, 2, 3] 30000 false =
      ⟨some [1, 2, 3], 0, none, emptyState⟩ ∧
    getXChainECRecover 7 emptyState 0 0 [1, 2, 3] 5000 true =
      ⟨some [1, 2, 3], 0, none, emptyState⟩ :=
  ⟨(xChainECRecover_stub_echoes emptyState 0 0 [1, 2, 3] 30000 7).1 (by decide),
   (xChainECRecover_stub_echoes emptyState 0 0 [1, 2, 3] 5000 7).2.2 true
     (by decide)⟩

/-! ## Mint state transition (C3) -/

theorem GetBalance_AddBalance_self (s : StateDB) (a amt : Nat) :
    (s.AddBalance a amt).GetBalance a = s.GetBalance a + amt := by
  simp [StateDB.GetBalance, StateDB.AddBalance]

theorem Exist_AddBalance_self (s : StateDB) (a amt : Nat) :
    (s.AddBalance a amt).Exist a = true := by
  simp [StateDB.Exist, StateDB.AddBalance]

theorem GetBalance_CreateAccount_self (s : StateDB) (a : Nat) :
    (s.CreateAccount a).GetBalance a = s.GetBalance a := by
  simp [StateDB.GetBalance, StateDB.CreateAccount]

/-- C3: an enabled caller's mint call with sufficient gas, readOnly =
false, and a 64-byte body decoding to `(to, amount)` succeeds: the target
account exists afterwards (created first when absent), its observable
balance grows by exactly `amount` (so an account with no prior record ends
with balance `amount`), and the handler returns empty output with the
supplied gas minus `MintGasCost`. -/
theorem mint_creates_and_adds_balance (s : StateDB) (caller addr : Nat)
    (input : List Nat) (gas toAddr amount : Nat)
    (hg : MintGasCost ≤ gas)
    (hu : UnpackMintInput input = .ok (toAddr, amount))
    (hen : (getAllowListStatus s ContractNativeMinterAddress caller).IsEnabled
      = true) :
    (createMintNativeCoin s caller addr input gas false).err = none ∧
    (createMintNativeCoin s caller addr input gas false).ret = some [] ∧
    (createMintNativeCoin s caller addr input gas false).remainingGas =
      gas - MintGasCost ∧
    (createMintNativeCoin s caller addr input gas false).state.Exist toAddr
      = true ∧
    (createMintNativeCoin s caller addr input gas false).state.GetBalance
      toAddr = s.GetBalance toAddr + amount ∧
    (s.Exist toAddr = false →
      (createMintNativeCoin s caller addr input gas false).state.GetBalance
        toAddr = amount) := by
  have hrun : createMintNativeCoin s caller addr input gas false =
      ⟨some [], gas - MintGasCost, none,
       (if s.Exist toAddr then s else s.CreateAccount toAddr).AddBalance
         toAddr amount⟩ := by
    simp [createMintNativeCoin, deductGas_ok _ _ hg, hu, hen]
  rw [hrun]
  refine ⟨rfl, rfl, rfl, Exist_AddBalance_self _ _ _, ?_, ?_⟩
  · by_cases hex : s.Exist toAddr
    · simp [hex, GetBalance_AddBalance_self]
    · simp [hex, GetBalance_AddBalance_self, GetBalance_CreateAccount_self]
  · intro hex
    have h0 : s.GetBalance toAddr = 0 := by
      simp [StateDB.GetBalance, show s.existsAcct toAddr = false from hex]
    simp [hex, GetBalance_AddBalance_self, GetBalance_CreateAccount_self, h0]

/-! ## GetFeeConfig structure (C8) and the set/get roundtrip (C1) -/

theorem getFeeConfig_of_not_exist (s : StateDB)
    (h : s.Exist FeeConfigManagerAddress = false) :
    GetFeeConfig s = (zeroFeeConfig, none) := by
  simp [GetFeeConfig, h]

theorem getFeeConfig_of_exist (s : StateDB)
    (h : s.Exist FeeConfigManagerAddress = true) :
    GetFeeConfig s =
      ({ GasLimit := s.GetState FeeConfigManagerAddress (feeSlotKey 0)
         TargetBlockRate := s.GetState FeeConfigManagerAddress (feeSlotKey 1)
         MinBaseFee := s.GetState FeeConfigManagerAddress (feeSlotKey 2)
         TargetGas := s.GetState FeeConfigManagerAddress (feeSlotKey 3)
         BaseFeeChangeDenominator :=
           s.GetState FeeConfigManagerAddress (feeSlotKey 4)
         MinBlockGasCost := s.GetState FeeConfigManagerAddress (feeSlotKey 5)
         MaxBlockGasCost := s.GetState FeeConfigManagerAddress (feeSlotKey 6)
         BlockGasCostStep := s.GetState FeeConfigManagerAddress (feeSlotKey 7) },
       none) := by
  simp only [GetFeeConfig, h, Bool.not_true]
  rfl

/-- C8: `GetFeeConfig` returns the zero `FeeConfig` with no error when the
fee-config-manager account does not exist, and otherwise reassembles the 8
fields from the fixed slots 0..7 in the fixed field order, with no error. -/
theorem getFeeConfig_unset_or_slots (s : StateDB) :
    (s.Exist FeeConfigManagerAddress = false →
      GetFeeConfig s = (zeroFeeConfig, none)) ∧
    (s.Exist FeeConfigManagerAddress = true →
      GetFeeConfig s =
        ({ GasLimit := s.GetState FeeConfigManagerAddress (feeSlotKey 0)
           TargetBlockRate := s.GetState FeeConfigManagerAddress (feeSlotKey 1)
           MinBaseFee := s.GetState FeeConfigManagerAddress (feeSlotKey 2)
           TargetGas := s.GetState FeeConfigManagerAddress (feeSlotKey 3)
           BaseFeeChangeDenominator :=
             s.GetState FeeConfigManagerAddress (feeSlotKey 4)
           MinBlockGasCost := s.GetState FeeConfigManagerAddress (feeSlotKey 5)
           MaxBlockGasCost := s.GetState FeeConfigManagerAddress (feeSlotKey 6)
           BlockGasCostStep :=
             s.GetState FeeConfigManagerAddress (feeSlotKey 7) },
         none)) :=
  ⟨getFeeConfig_of_not_exist s, getFeeConfig_of_exist s⟩

/-- C8 witness: the empty state (account absent) and a state where the
account exists with slot 2 written. -/
theorem getFeeConfig_unset_or_slots_witness :
    GetFeeConfig emptyState = (zeroFeeConfig, none) ∧
    GetFeeConfig (emptyState.SetState FeeConfigManagerAddress (feeSlotKey 2) 42)
      = ({ GasLimit := (emptyState.SetState FeeConfigManagerAddress
             (feeSlotKey 2) 42).GetState FeeConfigManagerAddress (feeSlotKey 0)
           TargetBlockRate := (emptyState.SetState FeeConfigManagerAddress
             (feeSlotKey 2) 42).GetState FeeConfigManagerAddress (feeSlotKey 1)
           MinBaseFee := (emptyState.SetState FeeConfigManagerAddress
             (feeSlotKey 2) 42).GetState FeeConfigManagerAddress (feeSlotKey 2)
           TargetGas := (emptyState.SetState FeeConfigManagerAddress
             (feeSlotKey 2) 42).GetState FeeConfigManagerAddress (feeSlotKey 3)
           BaseFeeChangeDenominator := (emptyState.SetState
             FeeConfigManagerAddress (feeSlotKey 2) 42).GetState
             FeeConfigManagerAddress (feeSlotKey 4)
           MinBlockGasCost := (emptyState.SetState FeeConfigManagerAddress
             (feeSlotKey 2) 42).GetState FeeConfigManagerAddress (feeSlotKey 5)
           MaxBlockGasCost := (emptyState.SetState FeeConfigManagerAddress
             (feeSlotKey 2) 42).GetState FeeConfigManagerAddress (feeSlotKey 6)
           BlockGasCostStep := (emptyState.SetState FeeConfigManagerAddress
             (feeSlotKey 2) 42).GetState FeeConfigManagerAddress (feeSlotKey 7) },
         none) :=
  ⟨(getFeeConfig_unset_or_slots emptyState).1 (by rfl),
   (getFeeConfig_unset_or_slots
      (emptyState.SetState FeeConfigManagerAddress (feeSlotKey 2) 42)).2
      (by rfl)⟩

theorem returnPackedElement_flatten (ws : List (List Nat))
    (hw : ∀ w ∈ ws, w.length = 32) (i : Nat) (hi : i < ws.length) :
    returnPackedElement ws.flatten i = ws.get ⟨i, hi⟩ := by
  induction ws generalizing i with
  | nil => exact absurd hi (by simp)
  | cons w ws ih =>
    cases i with
    | zero =>
      simp only [List.flatten_cons, List.get]
      exact returnPackedElement_zero _ _ (hw w (List.mem_cons_self _ _))
    | succ j =>
      simp only [List.flatten_cons, List.get]
      rw [returnPackedElement_succ _ _ (hw w (List.mem_cons_self _ _))]
      exact ih (fun x hx => hw x (List.mem_cons_of_mem _ hx)) j
        (by simpa using hi)

/-- All 8 fields of a fee config fit in 256 bits (Go's `*big.Int` fields
hold 256-bit storage words / packed words here). -/
def FeeConfig.Valid (c : FeeConfig) : Prop :=
  c.GasLimit < 2 ^ 256 ∧ c.TargetBlockRate < 2 ^ 256 ∧
  c.MinBaseFee < 2 ^ 256 ∧ c.TargetGas < 2 ^ 256 ∧
  c.BaseFeeChangeDenominator < 2 ^ 256 ∧ c.MinBlockGasCost < 2 ^ 256 ∧
  c.MaxBlockGasCost < 2 ^ 256 ∧ c.BlockGasCostStep < 2 ^ 256

instance (c : FeeConfig) : Decidable c.Valid := by
  unfold FeeConfig.Valid
  infer_instance

/-- The 256-byte argument body of a `setFeeConfig` call: the 8 fields in
fixed order, each as a 32-byte big-endian word. -/
def feeConfigBody (c : FeeConfig) : List Nat :=
  List.flatten
    [natToBeBytes 32 c.GasLimit,
     natToBeBytes 32 c.TargetBlockRate,
     natToBeBytes 32 c.MinBaseFee,
     natToBeBytes 32 c.TargetGas,
     natToBeBytes 32 c.BaseFeeChangeDenominator,
     natToBeBytes 32 c.MinBlockGasCost,
     natToBeBytes 32 c.MaxBlockGasCost,
     natToBeBytes 32 c.BlockGasCostStep]

theorem feeConfigBody_words_length (c : FeeConfig) :
    ∀ w ∈ [natToBeBytes 32 c.GasLimit,
           natToBeBytes 32 c.TargetBlockRate,
           natToBeBytes 32 c.MinBaseFee,
           natToBeBytes 32 c.TargetGas,
           natToBeBytes 32 c.BaseFeeChangeDenominator,
           natToBeBytes 32 c.MinBlockGasCost,
           natToBeBytes 32 c.MaxBlockGasCost,
           natToBeBytes 32 c.BlockGasCostStep], w.length = 32 := by
  simp [List.forall_mem_cons, natToBeBytes_length]

theorem feeConfigBody_length (c : FeeConfig) :
    (feeConfigBody c).length = feeConfigInputLen := by
  simp [feeConfigBody, List.flatten_cons, List.flatten_nil,
    List.length_append, natToBeBytes_length, feeConfigInputLen, HashLength,
    maxKey, minKey]

theorem packSetFeeConfig_ok (c : FeeConfig) :
    PackSetFeeConfigInput c = .ok (setFeeConfigSignature ++ feeConfigBody c) := by
  have hlen : (setFeeConfigSignature ++ feeConfigBody c).length =
      selectorLen + feeConfigInputLen := by
    simp only [List.length_append, feeConfigBody_length, setFeeConfigSignature,
      selectorLen, List.length_cons, List.length_nil]
  simp only [PackSetFeeConfigInput, inputPackOrdered]
  have hfl : List.flatten
      [setFeeConfigSignature,
       natToBeBytes 32 c.GasLimit,
       natToBeBytes 32 c.TargetBlockRate,
       natToBeBytes 32 c.MinBaseFee,
       natToBeBytes 32 c.TargetGas,
       natToBeBytes 32 c.BaseFeeChangeDenominator,
       natToBeBytes 32 c.MinBlockGasCost,
       natToBeBytes 32 c.MaxBlockGasCost,
       natToBeBytes 32 c.BlockGasCostStep] =
      setFeeConfigSignature ++ feeConfigBody c := by
    simp [feeConfigBody, List.flatten_cons]
  rw [hfl, hlen]
  simp

theorem unpackFeeConfig_body (c : FeeConfig) (h : c.Valid) :
    UnpackFeeConfigInput (feeConfigBody c) = .ok c := by
  obtain ⟨h0, h1, h2, h3, h4, h5, h6, h7⟩ := h
  have hw := feeConfigBody_words_length c
  have hlen := feeConfigBody_length c
  unfold UnpackFeeConfigInput
  rw [hlen, if_neg (by simp)]
  rw [show returnPackedElement (feeConfigBody c) 0 = natToBeBytes 32 c.GasLimit
      from returnPackedElement_flatten _ hw 0 (by norm_num),
    show returnPackedElement (feeConfigBody c) 1 =
        natToBeBytes 32 c.TargetBlockRate
      from returnPackedElement_flatten _ hw 1 (by norm_num),
    show returnPackedElement (feeConfigBody c) 2 =
        natToBeBytes 32 c.MinBaseFee
      from returnPackedElement_flatten _ hw 2 (by norm_num),
    show returnPackedElement (feeConfigBody c) 3 =
        natToBeBytes 32 c.TargetGas
      from returnPackedElement_flatten _ hw 3 (by norm_num),
    show returnPackedElement (feeConfigBody c) 4 =
        natToBeBytes 32 c.BaseFeeChangeDenominator
      from returnPackedElement_flatten _ hw 4 (by norm_num),
    show returnPackedElement (feeConfigBody c) 5 =
        natToBeBytes 32 c.MinBlockGasCost
      from returnPackedElement_flatten _ hw 5 (by norm_num),
    show returnPackedElement (feeConfigBody c) 6 =
        natToBeBytes 32 c.MaxBlockGasCost
      from returnPackedElement_flatten _ hw 6 (by norm_num),
    show returnPackedElement (feeConfigBody c) 7 =
        natToBeBytes 32 c.BlockGasCostStep
      from returnPackedElement_flatten _ hw 7 (by norm_num),
    beBytesToNat_natToBeBytes32 _ h0, beBytesToNat_natToBeBytes32 _ h1,
    beBytesToNat_natToBeBytes32 _ h2, beBytesToNat_natToBeBytes32 _ h3,
    beBytesToNat_natToBeBytes32 _ h4, beBytesToNat_natToBeBytes32 _ h5,
    beBytesToNat_natToBeBytes32 _ h6, beBytesToNat_natToBeBytes32 _ h7]

theorem setFeeConfig_unrolled (s : StateDB) (c : FeeConfig) :
    setFeeConfig s c =
      ((((((((s.SetState FeeConfigManagerAddress (feeSlotKey 0)
        (c.GasLimit % 2 ^ 256)).SetState FeeConfigManagerAddress (feeSlotKey 1)
        (c.TargetBlockRate % 2 ^ 256)).SetState FeeConfigManagerAddress
        (feeSlotKey 2) (c.MinBaseFee % 2 ^ 256)).SetState
        FeeConfigManagerAddress (feeSlotKey 3)
        (c.TargetGas % 2 ^ 256)).SetState FeeConfigManagerAddress (feeSlotKey 4)
        (c.BaseFeeChangeDenominator % 2 ^ 256)).SetState
        FeeConfigManagerAddress (feeSlotKey 5)
        (c.MinBlockGasCost % 2 ^ 256)).SetState FeeConfigManagerAddress
        (feeSlotKey 6) (c.MaxBlockGasCost % 2 ^ 256)).SetState
        FeeConfigManagerAddress (feeSlotKey 7)
        (c.BlockGasCostStep % 2 ^ 256), none) := rfl

theorem getFeeConfig_setFeeConfig (s : StateDB) (c : FeeConfig)
    (h : c.Valid) : GetFeeConfig (setFeeConfig s c).1 = (c, none) := by
  obtain ⟨h0, h1, h2, h3, h4, h5, h6, h7⟩ := h
  rw [show (setFeeConfig s c).1 = _ from congrArg Prod.fst
    (setFeeConfig_unrolled s c)]
  rw [getFeeConfig_of_exist _ (Exist_SetState_eq _ _ _ _)]
  rw [GetState_SetState_ne _ _ _ _ _ (feeSlotKey_ne 0 7 (by decide)),
    GetState_SetState_ne _ _ _ _ _ (feeSlotKey_ne 0 6 (by decide)),
    GetState_SetState_ne _ _ _ _ _ (feeSlotKey_ne 0 5 (by decide)),
    GetState_SetState_ne _ _ _ _ _ (feeSlotKey_ne 0 4 (by decide)),
    GetState_SetState_ne _ _ _ _ _ (feeSlotKey_ne 0 3 (by decide)),
    GetState_SetState_ne _ _ _ _ _ (feeSlotKey_ne 0 2 (by decide)),
    GetState_SetState_ne _ _ _ _ _ (feeSlotKey_ne 0 1 (by decide)),
    GetState_SetState_eq]
  rw [GetState_SetState_ne _ _ _ _ _ (feeSlotKey_ne 1 7 (by decide)),
    GetState_SetState_ne _ _ _ _ _ (feeSlotKey_ne 1 6 (by decide)),
    GetState_SetState_ne _ _ _ _ _ (feeSlotKey_ne 1 5 (by decide)),
    GetState_SetState_ne _ _ _ _ _ (feeSlotKey_ne 1 4 (by decide)),
    GetState_SetState_ne _ _ _ _ _ (feeSlotKey_ne 1 3 (by decide)),
    GetState_SetState_ne _ _ _ _ _ (feeSlotKey_ne 1 2 (by decide)),
    GetState_SetState_eq]
  rw [GetState_SetState_ne _ _ _ _ _ (feeSlotKey_ne 2 7 (by decide)),
    GetState_SetState_ne _ _ _ _ _ (feeSlotKey_ne 2 6 (by decide)),
    GetState_SetState_ne _ _ _ _ _ (feeSlotKey_ne 2 5 (by decide)),
    GetState_SetState_ne _ _ _ _ _ (feeSlotKey_ne 2 4 (by decide)),
    GetState_SetState_ne _ _ _ _ _ (feeSlotKey_ne 2 3 (by decide)),
    GetState_SetState_eq]
  rw [GetState_SetState_ne _ _ _ _ _ (feeSlotKey_ne 3 7 (by decide)),
    GetState_SetState_ne _ _ _ _ _ (feeSlotKey_ne 3 6 (by decide)),
    GetState_SetState_ne _ _ _ _ _ (feeSlotKey_ne 3 5 (by decide)),
    GetState_SetState_ne _ _ _ _ _ (feeSlotKey_ne 3 4 (by decide)),
    GetState_SetState_eq]
  rw [GetState_SetState_ne _ _ _ _ _ (feeSlotKey_ne 4 7 (by decide)),
    GetState_SetState_ne _ _ _ _ _ (feeSlotKey_ne 4 6 (by decide)),
    GetState_SetState_ne _ _ _ _ _ (feeSlotKey_ne 4 5 (by decide)),
    GetState_SetState_eq]
  rw [GetState_SetState_ne _ _ _ _ _ (feeSlotKey_ne 5 7 (by decide)),
    GetState_SetState_ne _ _ _ _ _ (feeSlotKey_ne 5 6 (by decide)),
    GetState_SetState_eq]
  rw [GetState_SetState_ne _ _ _ _ _ (feeSlotKey_ne 6 7 (by decide)),
    GetState_SetState_eq]
  rw [GetState_SetState_eq]
  rw [Nat.mod_eq_of_lt h0, Nat.mod_eq_of_lt h1, Nat.mod_eq_of_lt h2,
    Nat.mod_eq_of_lt h3, Nat.mod_eq_of_lt h4, Nat.mod_eq_of_lt h5,
    Nat.mod_eq_of_lt h6, Nat.mod_eq_of_lt h7]

/-- C1: for every fee config whose 8 fields are 256-bit values (including
all-zero and maximal), a `setFeeConfig` call by an enabled caller with
sufficient gas and readOnly = false on its packed 256-byte body succeeds,
and `GetFeeConfig` on the resulting state returns exactly that config. -/
theorem setFeeConfig_then_getFeeConfig (c : FeeConfig) (hv : c.Valid)
    (s : StateDB) (caller addr gas : Nat)
    (hg : SetFeeConfigGasCost ≤ gas)
    (hen : (getAllowListStatus s FeeConfigManagerAddress caller).IsEnabled
      = true) :
    PackSetFeeConfigInput c = .ok (setFeeConfigSignature ++ feeConfigBody c) ∧
    createSetFeeConfig s caller addr (feeConfigBody c) gas false =
      ⟨some [], gas - SetFeeConfigGasCost, none, (setFeeConfig s c).1⟩ ∧
    GetFeeConfig (createSetFeeConfig s caller addr (feeConfigBody c) gas
      false).state = (c, none) := by
  have hrun : createSetFeeConfig s caller addr (feeConfigBody c) gas false =
      ⟨some [], gas - SetFeeConfigGasCost, none, (setFeeConfig s c).1⟩ := by
    simp [createSetFeeConfig, deductGas_ok _ _ hg, unpackFeeConfig_body c hv,
      hen]
  refine ⟨packSetFeeConfig_ok c, hrun, ?_⟩
  rw [hrun]
  exact getFeeConfig_setFeeConfig s c hv

/-- The maximal 256-bit fee config, one of the corner cases of C1. -/
def maxFeeConfig : FeeConfig :=
  ⟨2 ^ 256 - 1, 2 ^ 256 - 1, 2 ^ 256 - 1, 2 ^ 256 - 1,
   2 ^ 256 - 1, 2 ^ 256 - 1, 2 ^ 256 - 1, 2 ^ 256 - 1⟩

/-- A state whose only write enabled caller 5 on the fee config manager. -/
def feeWitnessState : StateDB :=
  setAllowListRole emptyState FeeConfigManagerAddress 5 .Enabled

/-- C1 witness: the maximal fee config written by enabled caller 5. -/
theorem setFeeConfig_then_getFeeConfig_witness :
    maxFeeConfig.Valid ∧ SetFeeConfigGasCost ≤ 20000 ∧
    (getAllowListStatus feeWitnessState FeeConfigManagerAddress 5).IsEnabled
      = true ∧
    (PackSetFeeConfigInput maxFeeConfig =
        .ok (setFeeConfigSignature ++ feeConfigBody maxFeeConfig) ∧
      createSetFeeConfig feeWitnessState 5 0 (feeConfigBody maxFeeConfig)
        20000 false = ⟨some [], 20000 - SetFeeConfigGasCost, none,
          (setFeeConfig feeWitnessState maxFeeConfig).1⟩ ∧
      GetFeeConfig (createSetFeeConfig feeWitnessState 5 0
        (feeConfigBody maxFeeConfig) 20000 false).state =
        (maxFeeConfig, none)) :=
  ⟨by decide, by decide, by rfl,
   setFeeConfig_then_getFeeConfig maxFeeConfig (by decide) feeWitnessState
     5 0 20000 (by decide) (by rfl)⟩

/-- A state whose only write enabled caller 5 on the native minter. -/
def mintWitnessState : StateDB :=
  setAllowListRole emptyState ContractNativeMinterAddress 5 .Enabled

set_option maxRecDepth 4000 in
/-- C3 witness: enabled caller 5 mints 500 to the fresh account 7. -/
theorem mint_creates_and_adds_balance_witness :
    MintGasCost ≤ 30000 ∧
    UnpackMintInput (natToBeBytes 32 7 ++ natToBeBytes 32 500) =
      .ok (7, 500) ∧
    (getAllowListStatus mintWitnessState ContractNativeMinterAddress
      5).IsEnabled = true ∧
    ((createMintNativeCoin mintWitnessState 5 0
        (natToBeBytes 32 7 ++ natToBeBytes 32 500) 30000 false).err = none ∧
      (createMintNativeCoin mintWitnessState 5 0
        (natToBeBytes 32 7 ++ natToBeBytes 32 500) 30000 false).ret =
        some [] ∧
      (createMintNativeCoin mintWitnessState 5 0
        (natToBeBytes 32 7 ++ natToBeBytes 32 500) 30000
        false).remainingGas = 30000 - MintGasCost ∧
      (createMintNativeCoin mintWitnessState 5 0
        (natToBeBytes 32 7 ++ natToBeBytes 32 500) 30000 false).state.Exist
        7 = true ∧
      (createMintNativeCoin mintWitnessState 5 0
        (natToBeBytes 32 7 ++ natToBeBytes 32 500) 30000
        false).state.GetBalance 7 = mintWitnessState.GetBalance 7 + 500 ∧
      (mintWitnessState.Exist 7 = false →
        (createMintNativeCoin mintWitnessState 5 0
          (natToBeBytes 32 7 ++ natToBeBytes 32 500) 30000
          false).state.GetBalance 7 = 500)) :=
  ⟨by decide, by rfl, by rfl,
   mint_creates_and_adds_balance mintWitnessState 5 0
     (natToBeBytes 32 7 ++ natToBeBytes 32 500) 30000 7 500 (by decide)
     (by rfl) (by rfl)⟩
